import Mathlib

/-!
Shallow embedding of `server.go` (real-varshney/go-lang-backend), a
real-time leaderboard service backed by a Redis-style key/value store.

The repository holds two near-identical variants of the server in one
file.  They share `getAllPlayers`, `updateScore` and `handleWebSocket`
verbatim; they differ in `addUser` (the second variant resets the score
to 0 and answers with a JSON `{Username, Score, State}` object, which is
the shape the claims reference) and in how the Redis credentials are
obtained (irrelevant here).  We embed the shared functions once and
`addUser` from the second variant.

Modelling conventions:
* Go strings are modelled as Lean `String`; the byte-level helpers
  `strings.HasPrefix` and `strings.Split` are re-implemented over
  `String.data` (`hasPrefixC`, `splitOnChar`) because they must be
  evaluable by the kernel; they agree with Go's semantics on every
  input (split on every occurrence of the separator, prefix test on
  the character sequence).
* `json.Marshal` of a `GameState` value and of the small literal maps
  built by the server cannot fail; those dead error branches are noted
  in comments.  Values read back from the store are modelled by
  `RawVal`: either a faithful serialization of a `GameState`
  (`RawVal.json`) or bytes that do not deserialize (`RawVal.corrupt`,
  which also covers `client.Get(..).Val()` returning `""` after a store
  error, since `json.Unmarshal` of `""` fails).
* The Redis client is modelled by `Store` (point reads/writes, used by
  `addUser`/`updateScore`) and `ScanStore` (cursor-paginated `SCAN`
  plus `Get(..).Val()`, used by `getAllPlayers`).
* The global `leaderboardSubscribers map[*websocket.Conn]bool` is
  modelled as a list of `Subscriber` handles; each handle carries a
  `writeOk` flag saying whether `WriteMessage` on it succeeds
  (a failed/disconnected peer).  Go's `range`-with-`delete` iteration
  visits every remaining entry exactly once, which the list fold
  reproduces; claims proved below do not depend on iteration order.
* `getAllPlayers`'s unbounded `for` loop is embedded with an explicit
  fuel parameter: `none` means the loop has not terminated within the
  given fuel, and divergence is expressed as `none` for every fuel.
-/

/-- Go `GameState` struct: `Username string`, `Score int`. -/
structure GameState where
  username : String
  score : Int
deriving DecidableEq, Repr

/-- A stored raw value: either the faithful JSON serialization of a
`GameState` (what `json.Marshal` produces and `json.Unmarshal` reads
back) or bytes that fail to unmarshal into `GameState`. -/
inductive RawVal where
  | json (g : GameState)
  | corrupt
deriving DecidableEq, Repr

/-- Go `json.Unmarshal(data, &gameState)`: succeeds exactly on faithful
serializations. -/
def decodeGameState : RawVal → Option GameState
  | .json g => some g
  | .corrupt => none

/-- Errors surfaced by the store client (`redis` errors and
`json.Unmarshal` errors are the only ones the embedded code returns). -/
inductive Err where
  | storeErr (code : Nat)
  | unmarshalErr
deriving DecidableEq, Repr

/-- Result of `client.Get(ctx, key).Result()`: value found (`err == nil`),
`redis.Nil` (key absent), or a connectivity/I-O failure. -/
inductive GetResult where
  | found (v : RawVal)
  | notFound
  | errConn
deriving DecidableEq, Repr

/-- Point read/write view of the Redis client used by `addUser` and
`updateScore`.  `get` is what `Get(..).Result()` answers per key;
`setResult k = some e` means `Set(ctx, k, v, 0).Err()` fails with `e`,
`none` means the write succeeds. -/
structure Store where
  get : String → GetResult
  setResult : String → Option Err

/-- Effect of a successful `client.Set(ctx, k, v, 0)` on later reads. -/
def Store.setVal (st : Store) (k : String) (v : RawVal) : Store :=
  { st with get := fun k2 => if k2 = k then .found v else st.get k2 }

/-- One live websocket handle in the global `leaderboardSubscribers`
map; `writeOk = false` models a peer on which `WriteMessage` fails. -/
structure Subscriber where
  id : Nat
  writeOk : Bool
deriving DecidableEq, Repr

/-- Outbound frames the server writes to websocket peers. -/
inductive OutMsg where
  | subscriptionConfirmed
  | dataUpdated (g : GameState)
deriving DecidableEq, Repr

/-- Shared mutable state of the server process: the Redis client and the
global `leaderboardSubscribers` registry. -/
structure WorldState where
  store : Store
  subs : List Subscriber

/-- The fan-out loop of `updateScore`:
`for subscriber := range leaderboardSubscribers { err = subscriber.WriteMessage(...);
 if err != nil { delete(leaderboardSubscribers, subscriber); continue } }`.
Returns the list of push attempts `(handle id, message)` in iteration
order together with the registry left behind (failed handles deleted). -/
def broadcast (msg : OutMsg) : List Subscriber → List (Nat × OutMsg) × List Subscriber
  | [] => ([], [])
  | s :: rest =>
    let (pushes, remaining) := broadcast msg rest
    ((s.id, msg) :: pushes, if s.writeOk then s :: remaining else remaining)

/-- Result of one `updateScore` call: the Go return value, the push
attempts made to subscribers, and the world state afterwards. -/
structure UpdateResult where
  res : Except Err Unit
  pushes : List (Nat × OutMsg)
  world : WorldState

/-- Go `updateScore(username string, newScore int) error`.
`json.Marshal(GameState{...})` and `json.Marshal(map{"type": "DataUpdated",
"value": gameStateData})` cannot fail, so those two early-return branches
are dead; the only fallible steps are the `Set` and the per-subscriber
`WriteMessage` calls. -/
def updateScore (w : WorldState) (username : String) (newScore : Int) : UpdateResult :=
  let g : GameState := ⟨username, newScore⟩
  let key := "user:" ++ username
  match w.store.setResult key with
  | some e => ⟨.error e, [], w⟩          -- `if err != nil { return err }` before any push
  | none =>
    let store2 := w.store.setVal key (.json g)
    let (pushes, remaining) := broadcast (.dataUpdated g) w.subs
    ⟨.ok (), pushes, ⟨store2, remaining⟩⟩  -- `return nil` regardless of push failures

/-- HTTP response produced by the JSON variant of `addUser`. -/
inductive AddUserResult where
  | badRequest                                            -- body decode failure, 400
  | internalError                                         -- stored value fails to unmarshal, 500
  | failedSet                                             -- `Set` error, 500 "Failed to add user"
  | jsonResp (username : String) (score : Int) (state : String)
deriving DecidableEq, Repr

/-- Go `addUser` (JSON-response variant): `body = none` models a request
body that does not decode into `GameState`.  Note the existence check is
`if err == nil`: *any* non-nil `Get` error — `redis.Nil` or a real store
failure — falls through to the creation path. -/
def addUser (st : Store) (body : Option GameState) : AddUserResult × Store :=
  match body with
  | none => (.badRequest, st)
  | some user =>
    let usernameKey := "user:" ++ user.username
    match st.get usernameKey with
    | .found v =>
      -- `err == nil`: username exists, answer with the stored record
      match decodeGameState v with
      | none => (.internalError, st)
      | some existingUser =>
        (.jsonResp existingUser.username existingUser.score "already exists", st)
    | _ =>
      -- `err != nil` (redis.Nil or connectivity error alike): create
      let user2 : GameState := { user with score := 0 }   -- `user.Score = 0`
      -- `json.Marshal(user)` cannot fail (dead 500 branch)
      match st.setResult usernameKey with
      | some _ => (.failedSet, st)
      | none => (.jsonResp user2.username user2.score "newly added", st.setVal usernameKey (.json user2))

/-- A field of the inner `value` object, as Go's `json.Unmarshal` into
`map[string]interface{}` produces it: a string, a number (always
`float64` in Go; the frames of interest carry integral scores, which
`int(score)` truncates — modelled as `Int`), or anything else (`bool`,
`null`, arrays, nested objects), which only ever fails the type
assertions `.(string)` / `.(float64)` performed on it. -/
inductive JPrim where
  | str (s : String)
  | num (n : Int)
  | other
deriving DecidableEq, Repr

/-- A top-level field of a decoded inbound frame.  The handler inspects
JSON values at exactly two depths — top-level fields compared against
string constants or asserted to be a map, and the `value` object's
fields asserted to be string/number — so two levels of structure
represent every behavior the handler can distinguish; any deeper or
uncomparable value collapses to `other` (interface equality of a
non-string with a string constant is `false` in Go, and failed type
assertions yield `ok = false`). -/
inductive JVal where
  | str (s : String)
  | num (n : Int)
  | obj (fields : List (String × JPrim))
  | other
deriving DecidableEq, Repr

/-- Field lookup in a decoded JSON object (`data["type"]` etc.).
The decoded Go map has unique keys, so the association list is
duplicate-free and first-match lookup is exact. -/
def lookupField {α : Type} : List (String × α) → String → Option α
  | [], _ => none
  | (k, v) :: rest, f => if k = f then some v else lookupField rest f

/-- An inbound text frame after `json.Unmarshal(message, &data)`:
either the unmarshal failed (non-JSON, or JSON that is not an object),
or it produced an object with the given fields. -/
inductive Payload where
  | notJsonObject
  | jsonObject (fields : List (String × JVal))
deriving DecidableEq, Repr

/-- Result of one `ws.ReadMessage()` call. -/
inductive ReadResult where
  | failure                                  -- `err != nil` (incl. peer disconnect)
  | message (messageType : Int) (payload : Payload)
deriving DecidableEq, Repr

/-- What the loop body decides to do next.  The embedded body can only
ever continue: the sole `return` in the source sits behind a
`json.Marshal` of a constant map, which cannot fail. -/
inductive LoopAction where
  | continueLoop
  | returnClose
deriving DecidableEq, Repr

/-- Observable outcome of one iteration of the `handleWebSocket` read
loop: the control-flow decision, the frames written directly to this
connection, the broadcast push attempts of a triggered `updateScore`,
and the world state afterwards. -/
structure WsStepOut where
  action : LoopAction
  direct : List OutMsg
  pushes : List (Nat × OutMsg)
  world : WorldState

/-- Go constant `websocket.TextMessage`. -/
def textMessage : Int := 1

/-- One iteration of the `for` loop in `handleWebSocket`, for a
connection already registered in `leaderboardSubscribers`.

Faithful points worth noting:
* read error: `fmt.Println(err); continue` — no `break`, no registry
  removal, no close (the busy-loop bug);
* non-text frames and undecodable frames: skipped, loop continues;
* `type == "subscribe" && channel == "leaderboard_updates"`: a
  `subscription_confirmed` frame is written (its `WriteMessage` error is
  ignored); the `json.Marshal`-error `return` branch is dead;
* `type == "update"`: when `value` is missing or not an object, Go's
  failed type assertion leaves `valuemap` nil, reading fields of a nil
  map yields zero values, both `ok` flags are false and nothing happens;
  when both `username` (string) and `score` (number) are present,
  `updateScore` runs and its error is only logged. -/
def wsLoopStep (w : WorldState) (r : ReadResult) : WsStepOut :=
  match r with
  | .failure => ⟨.continueLoop, [], [], w⟩
  | .message mt payload =>
    if mt = textMessage then
      match payload with
      | .notJsonObject => ⟨.continueLoop, [], [], w⟩
      | .jsonObject fields =>
        let direct1 : List OutMsg :=
          if lookupField fields "type" = some (.str "subscribe")
              ∧ lookupField fields "channel" = some (.str "leaderboard_updates") then
            [.subscriptionConfirmed]
          else []
        if lookupField fields "type" = some (.str "update") then
          match lookupField fields "value" with
          | some (.obj vfields) =>
            match lookupField vfields "username", lookupField vfields "score" with
            | some (JPrim.str username), some (JPrim.num score) =>
              let u := updateScore w username score
              ⟨.continueLoop, direct1, u.pushes, u.world⟩
            | _, _ => ⟨.continueLoop, direct1, [], w⟩   -- "err in map"
          | _ => ⟨.continueLoop, direct1, [], w⟩        -- "'value' field missing or not a map"
        else ⟨.continueLoop, direct1, [], w⟩
    else ⟨.continueLoop, [], [], w⟩

/-- Registration on connect: `leaderboardSubscribers[ws] = true`. -/
def wsRegister (w : WorldState) (s : Subscriber) : WorldState :=
  ⟨w.store, s :: w.subs⟩

/-- Frames that the C8 claim calls malformed: not decodable as a JSON
object, or decodable but without a `type` field equal to one of the two
recognized discriminator strings. -/
def unrecognizedFrame : Payload → Prop
  | .notJsonObject => True
  | .jsonObject fields =>
    lookupField fields "type" ≠ some (.str "subscribe")
      ∧ lookupField fields "type" ≠ some (.str "update")

instance : DecidablePred unrecognizedFrame := fun p =>
  match p with
  | .notJsonObject => .isTrue trivial
  | .jsonObject _ => inferInstanceAs (Decidable (_ ∧ _))

/-- Go `strings.HasPrefix(s, pre)` over character sequences (first
argument is the would-be leading segment). -/
def hasPrefixC : List Char → List Char → Bool
  | [], _ => true
  | _ :: _, [] => false
  | p :: ps, s :: ss => p == s && hasPrefixC ps ss

/-- Go `strings.Split(s, sep)` for a single-character separator: splits
at every occurrence, keeping empty segments, so the result length is
one more than the number of separator occurrences. -/
def splitOnChar (c : Char) : List Char → List (List Char)
  | [] => [[]]
  | x :: xs =>
    let r := splitOnChar c xs
    if x == c then [] :: r
    else
      match r with
      | [] => [[x]]
      | y :: ys => (x :: y) :: ys

/-- The key-shape filter of `getAllPlayers`:
`strings.HasPrefix(key, "user:") && len(strings.Split(key, ":")) == 2`. -/
def isWellFormedUserKey (k : String) : Bool :=
  hasPrefixC "user:".data k.data && (splitOnChar ':' k.data).length == 2

/-- Cursor-paginated view of the Redis client used by `getAllPlayers`:
`page c` is what `client.Scan(ctx, c, "", 100).Result()` answers — a
page of keys plus the continuation cursor (`0` meaning the scan is
complete) or a store error; `val k` is `client.Get(ctx, k).Val()`
(a `Get` error yields `""`, i.e. bytes that fail to unmarshal, covered
by `RawVal.corrupt`). -/
structure ScanStore where
  page : Nat → Except Err (List String × Nat)
  val : String → RawVal

/-- The inner `for _, key := range keys` loop of `getAllPlayers`:
keys failing the `"user:"` prefix test or the two-segment test are
skipped (the latter with a log line); an unmarshal failure of a kept
key aborts the whole call with that error. -/
def processKeys (st : ScanStore) : List String → List GameState → Except Err (List GameState)
  | [], players => .ok players
  | key :: rest, players =>
    if isWellFormedUserKey key then
      match decodeGameState (st.val key) with
      | none => .error .unmarshalErr
      | some gameState => processKeys st rest (players ++ [gameState])
    else processKeys st rest players

/-- The outer `for { ... }` loop of `getAllPlayers`, with fuel.

The source reads
`keys, cursor, err := client.Scan(context.Background(), cursor, matchPattern, 100).Result()`
inside the loop body: the `:=` declares a *new* `cursor` shadowing the
one initialized to 0 outside the loop, so the argument passed to `Scan`
is always the outer `cursor` (never updated — hence the recursive call
below passes `cursor` unchanged), while the `if cursor == 0 { break }`
test reads the inner, freshly returned one. -/
def getAllPlayersLoop (st : ScanStore) (cursor : Nat) (players : List GameState) :
    Nat → Option (Except Err (List GameState))
  | 0 => none
  | fuel + 1 =>
    match st.page cursor with
    | .error e => some (.error e)
    | .ok (keys, innerCursor) =>
      match processKeys st keys players with
      | .error e => some (.error e)
      | .ok players2 =>
        if innerCursor = 0 then some (.ok players2)
        else getAllPlayersLoop st cursor players2 fuel

/-- The comparator of the final
`sort.Slice(players, func(i, j int) bool { return players[i].Score > players[j].Score })`,
as the non-strict order it sorts into: scores non-increasing. -/
def scoreGE (a b : GameState) : Prop := b.score ≤ a.score

instance : DecidableRel scoreGE := fun a b => inferInstanceAs (Decidable (b.score ≤ a.score))

instance : IsTotal GameState scoreGE := ⟨fun a b => Int.le_total b.score a.score⟩

instance : IsTrans GameState scoreGE := ⟨fun _ _ _ h1 h2 => le_trans h2 h1⟩

/-- Go `getAllPlayers(client)`, fuelled.  `sort.Slice` with the
score-descending comparator is unstable and guarantees exactly that the
output is a permutation of the input sorted by that comparator; it is
modelled by a concrete comparison sort with the same comparator, and
the theorems below use only those two guaranteed properties. -/
def getAllPlayers (st : ScanStore) (fuel : Nat) : Option (Except Err (List GameState)) :=
  match getAllPlayersLoop st 0 [] fuel with
  | none => none
  | some (.error e) => some (.error e)
  | some (.ok players) => some (.ok (List.insertionSort scoreGE players))

/-- Non-termination of the scan: no amount of fuel makes the loop of
`getAllPlayers` return (the Go original loops forever). -/
def getAllPlayersDiverges (st : ScanStore) : Prop :=
  ∀ fuel, getAllPlayers st fuel = none

/-- A page of keys together with the records they hold, as the claims
about a well-formed store describe it: every key is `"user:"`-prefixed
with a single separator, and its stored value deserializes to the
corresponding record. -/
def pageWellFormed (st : ScanStore) (keys : List String) (recs : List GameState) : Prop :=
  List.Forall₂ (fun k r => isWellFormedUserKey k = true ∧ st.val k = .json r) keys recs

/- Concrete fixtures used by witnesses and counterexamples. -/

/-- A healthy, empty store: every key absent, every write succeeds. -/
def emptyStore : Store := ⟨fun _ => .notFound, fun _ => none⟩

/-- A store whose reads all fail with a connectivity error but whose
writes succeed. -/
def errGetStore : Store := ⟨fun _ => .errConn, fun _ => none⟩

/-- A store whose writes all fail. -/
def failSetStore : Store := ⟨fun _ => .notFound, fun _ => some (.storeErr 7)⟩

/-- Three registered handles; handle 2 is a dead peer (writes fail). -/
def demoSubs : List Subscriber := [⟨1, true⟩, ⟨2, false⟩, ⟨3, true⟩]

def demoWorld : WorldState := ⟨emptyStore, demoSubs⟩

def failSetWorld : WorldState := ⟨failSetStore, demoSubs⟩

/-- A two-page scan: the page at cursor 0 holds one key and continues
with cursor 7; the page at cursor 7 would finish the scan. -/
def twoPageStore : ScanStore :=
  ⟨fun c => if c = 0 then .ok (["user:alice"], 7) else .ok (["user:bob"], 0),
   fun k => if k = "user:alice" then .json ⟨"alice", 10⟩ else .json ⟨"bob", 20⟩⟩

/-- Another two-page scan holding exactly two well-formed records. -/
def pagedStoreB : ScanStore :=
  ⟨fun c => if c = 0 then .ok (["user:carol"], 3) else .ok (["user:dave"], 0),
   fun k => if k = "user:carol" then .json ⟨"carol", 7⟩ else .json ⟨"dave", 7⟩⟩

/-- A single-page scan holding two well-formed records. -/
def onePageStore : ScanStore :=
  ⟨fun c => if c = 0 then .ok (["user:alice", "user:bob"], 0) else .ok ([], 0),
   fun k => if k = "user:alice" then .json ⟨"alice", 10⟩ else .json ⟨"bob", 20⟩⟩

/-- A scan whose very first page fetch fails. -/
def errPageStore : ScanStore := ⟨fun _ => .error (.storeErr 3), fun _ => .corrupt⟩

/-- A single-page scan with one well-formed key whose value does not
deserialize. -/
def corruptValStore : ScanStore := ⟨fun _ => .ok (["user:eve"], 0), fun _ => .corrupt⟩

/- Helper lemmas. -/

/-- The fan-out loop attempts exactly one push per registered handle, in
order, and keeps exactly the handles whose push succeeded. -/
theorem broadcast_eq (msg : OutMsg) (subs : List Subscriber) :
    broadcast msg subs = (subs.map (fun s => (s.id, msg)), subs.filter (fun s => s.writeOk)) := by
  induction subs with
  | nil => rfl
  | cons s rest ih =>
    cases h : s.writeOk
    · simp [broadcast, ih, List.filter_cons, h]
    · simp [broadcast, ih, List.filter_cons, h]

/-- On a page whose every key is well-formed and deserializes, the inner
key loop appends exactly the page's records. -/
theorem processKeys_ok {st : ScanStore} {keys : List String} {recs : List GameState}
    (hwf : pageWellFormed st keys recs) :
    ∀ acc, processKeys st keys acc = .ok (acc ++ recs) := by
  induction hwf with
  | nil => intro acc; simp [processKeys]
  | cons hkr _ ih =>
    intro acc
    obtain ⟨hk, hv⟩ := hkr
    simp only [processKeys, hk, if_pos, hv, decodeGameState, ih, List.append_assoc,
      List.singleton_append]

/-- If some well-formed key on a page has a value that fails to
deserialize, the inner key loop aborts with the unmarshal error. -/
theorem processKeys_err {st : ScanStore} {keys : List String} {k : String}
    (hmem : k ∈ keys) (hk : isWellFormedUserKey k = true)
    (hbad : decodeGameState (st.val k) = none) :
    ∀ acc, processKeys st keys acc = .error .unmarshalErr := by
  induction keys with
  | nil => cases hmem
  | cons key rest ih =>
    intro acc
    rcases List.mem_cons.mp hmem with rfl | hmem2
    · simp only [processKeys, hk, if_pos, hbad]
    · by_cases hwk : isWellFormedUserKey key = true
      · simp only [processKeys, hwk, if_pos]
        cases hdec : decodeGameState (st.val key) with
        | none => rfl
        | some g => exact ih hmem2 _
      · simp only [processKeys, hwk, if_neg, Bool.not_eq_true]
        exact ih hmem2 acc

/-- If the page fetched at cursor 0 answers a non-zero continuation
cursor and processes cleanly, the loop never terminates: the shadowed
cursor makes every iteration re-fetch the page at cursor 0. -/
theorem getAllPlayersLoop_diverges {st : ScanStore} {keys : List String}
    {recs : List GameState} {c : Nat} (hc : c ≠ 0)
    (hpage : st.page 0 = .ok (keys, c)) (hwf : pageWellFormed st keys recs) :
    ∀ fuel acc, getAllPlayersLoop st 0 acc fuel = none := by
  intro fuel
  induction fuel with
  | zero => intro acc; rfl
  | succ n ih =>
    intro acc
    simp only [getAllPlayersLoop, hpage, processKeys_ok hwf, if_neg hc]
    exact ih (acc ++ recs)

/- Claim theorems. -/

/-- C1: after a successful store write, `updateScore` attempts exactly
one push of the `DataUpdated` notification (carrying the new record) to
each registered handle; every handle whose push fails is removed from
the registry while delivery proceeds to all the others, and the call
returns ok regardless of how many pushes failed. -/
theorem updateScore_broadcast_fanout (w : WorldState) (u : String) (n : Int)
    (hset : w.store.setResult ("user:" ++ u) = none) :
    (updateScore w u n).res = .ok () ∧
    (updateScore w u n).pushes = w.subs.map (fun s => (s.id, .dataUpdated ⟨u, n⟩)) ∧
    (updateScore w u n).world.subs = w.subs.filter (fun s => s.writeOk) := by
  simp [updateScore, hset, broadcast_eq]

/-- Witness for C1: three registered handles, handle 2 dead — all three
are pushed to exactly once, only handle 2 is dropped, result is ok. -/
theorem updateScore_broadcast_fanout_witness :
    (updateScore demoWorld "alice" 30).res = .ok () ∧
    (updateScore demoWorld "alice" 30).pushes =
      demoSubs.map (fun s => (s.id, .dataUpdated ⟨"alice", 30⟩)) ∧
    (updateScore demoWorld "alice" 30).world.subs = demoSubs.filter (fun s => s.writeOk) :=
  updateScore_broadcast_fanout demoWorld "alice" 30 rfl

/-- C2: on a store whose first page answers a non-zero continuation
cursor (here: two pages, completion reachable at cursor 7), the key scan
of `getAllPlayers` never terminates — the shadowed `cursor` variable
makes every fetch pass cursor 0 instead of the previously returned
cursor, so the scan never advances and never sees the zero cursor. -/
theorem scan_never_advances_cursor :
    twoPageStore.page 0 = .ok (["user:alice"], 7) ∧
    twoPageStore.page 7 = .ok (["user:bob"], 0) ∧
    getAllPlayersDiverges twoPageStore := by
  refine ⟨rfl, rfl, fun fuel => ?_⟩
  have h := @getAllPlayersLoop_diverges twoPageStore ["user:alice"] [⟨"alice", 10⟩] 7
    (by decide) rfl (List.Forall₂.cons ⟨by decide, rfl⟩ List.Forall₂.nil) fuel []
  simp [getAllPlayers, h]

/-- C3 counterexample: a store holding exactly two well-formed records
spread over two scan pages; `getAllPlayers` never returns at all, so in
particular it does not return the two stored records. -/
theorem getAllPlayers_two_page_never_returns :
    pageWellFormed pagedStoreB ["user:carol"] [⟨"carol", 7⟩] ∧
    pageWellFormed pagedStoreB ["user:dave"] [⟨"dave", 7⟩] ∧
    pagedStoreB.page 0 = .ok (["user:carol"], 3) ∧
    pagedStoreB.page 3 = .ok (["user:dave"], 0) ∧
    getAllPlayersDiverges pagedStoreB := by
  have hwf : pageWellFormed pagedStoreB ["user:carol"] [⟨"carol", 7⟩] :=
    List.Forall₂.cons ⟨by decide, rfl⟩ List.Forall₂.nil
  refine ⟨hwf, List.Forall₂.cons ⟨by decide, rfl⟩ List.Forall₂.nil, rfl, rfl, fun fuel => ?_⟩
  have h := @getAllPlayersLoop_diverges pagedStoreB ["user:carol"] [⟨"carol", 7⟩] 3
    (by decide) rfl hwf fuel []
  simp [getAllPlayers, h]

/-- C3 (amended): when the whole well-formed contents fit in the first
scan page (continuation cursor 0), `getAllPlayers` returns exactly the
stored records, as a permutation ordered by non-increasing score; tie
order among equal scores is whatever the unstable sort produces. -/
theorem getAllPlayers_single_page_perm_sorted (st : ScanStore) (keys : List String)
    (recs : List GameState) (fuel : Nat)
    (hpage : st.page 0 = .ok (keys, 0))
    (hwf : pageWellFormed st keys recs) :
    ∃ l, getAllPlayers st (fuel + 1) = some (.ok l) ∧ l.Perm recs ∧ l.Sorted scoreGE := by
  refine ⟨List.insertionSort scoreGE recs, ?_, List.perm_insertionSort scoreGE recs,
    List.sorted_insertionSort scoreGE recs⟩
  simp [getAllPlayers, getAllPlayersLoop, hpage, processKeys_ok hwf]

/-- Witness for the amended C3: two records on one page come back as a
score-descending permutation. -/
theorem getAllPlayers_single_page_perm_sorted_witness :
    ∃ l, getAllPlayers onePageStore 1 = some (.ok l) ∧
      l.Perm [⟨"alice", 10⟩, ⟨"bob", 20⟩] ∧ l.Sorted scoreGE :=
  getAllPlayers_single_page_perm_sorted onePageStore ["user:alice", "user:bob"]
    [⟨"alice", 10⟩, ⟨"bob", 20⟩] 0 rfl
    (List.Forall₂.cons ⟨by decide, rfl⟩ (List.Forall₂.cons ⟨by decide, rfl⟩ List.Forall₂.nil))

/-- C4: on a read error the per-connection loop merely logs and
continues — the handle stays in the registry, no close happens, the
world is untouched; the terminal cleanup the claim requires never
occurs (the busy-loop bug flagged in the spec). -/
theorem wsLoop_read_error_continues (w : WorldState) :
    wsLoopStep w .failure = ⟨.continueLoop, [], [], w⟩ := rfl

/-- C5: the first `add-user` for an absent username stores the record
with score 0 and answers `"newly added"`; every subsequent call answers
`"already exists"` with the originally stored score 0 and leaves the
store unchanged, whatever score the later call supplies. -/
theorem addUser_idempotent (st : Store) (u : String) (s1 : Int)
    (habs : st.get ("user:" ++ u) = .notFound)
    (hset : st.setResult ("user:" ++ u) = none) :
    ∃ st1,
      addUser st (some ⟨u, s1⟩) = (.jsonResp u 0 "newly added", st1) ∧
      st1.get ("user:" ++ u) = .found (.json ⟨u, 0⟩) ∧
      ∀ s2 : Int, addUser st1 (some ⟨u, s2⟩) = (.jsonResp u 0 "already exists", st1) := by
  refine ⟨st.setVal ("user:" ++ u) (.json ⟨u, 0⟩), ?_, ?_, ?_⟩
  · simp only [addUser, habs, hset]
  · simp [Store.setVal]
  · intro s2
    simp [addUser, Store.setVal, decodeGameState]

/-- Witness for C5: adding "alice" twice to an empty healthy store. -/
theorem addUser_idempotent_witness :
    ∃ st1,
      addUser emptyStore (some ⟨"alice", 5⟩) = (.jsonResp "alice" 0 "newly added", st1) ∧
      st1.get ("user:" ++ "alice") = .found (.json ⟨"alice", 0⟩) ∧
      ∀ s2 : Int, addUser st1 (some ⟨"alice", s2⟩) = (.jsonResp "alice" 0 "already exists", st1) :=
  addUser_idempotent emptyStore "alice" 5 rfl rfl

/-- C6: when the store `Set` fails, `updateScore` returns that error
and the broadcast phase is never entered: no push is attempted and the
registry (and store view) are exactly as before. -/
theorem updateScore_set_failure_aborts (w : WorldState) (u : String) (n : Int) (e : Err)
    (hset : w.store.setResult ("user:" ++ u) = some e) :
    updateScore w u n = ⟨.error e, [], w⟩ := by
  simp only [updateScore, hset]

/-- Witness for C6: a failing write aborts before any of the three
registered handles is pushed to. -/
theorem updateScore_set_failure_aborts_witness :
    updateScore failSetWorld "alice" 30 = ⟨.error (.storeErr 7), [], failSetWorld⟩ :=
  updateScore_set_failure_aborts failSetWorld "alice" 30 (.storeErr 7) rfl

/-- C7: `getAllPlayers` is fail-fast — a store error on the page fetch,
or a well-formed `"user:"` key on the page whose value does not
deserialize, makes the whole call return that error with no records
alongside it. -/
theorem getAllPlayers_fail_fast (st : ScanStore) (fuel : Nat) (e : Err)
    (keys : List String) (c : Nat) :
    (st.page 0 = .error e → getAllPlayers st (fuel + 1) = some (.error e)) ∧
    (st.page 0 = .ok (keys, c) →
      (∃ k ∈ keys, isWellFormedUserKey k = true ∧ decodeGameState (st.val k) = none) →
      getAllPlayers st (fuel + 1) = some (.error .unmarshalErr)) := by
  constructor
  · intro hpage
    simp [getAllPlayers, getAllPlayersLoop, hpage]
  · rintro hpage ⟨k, hmem, hk, hbad⟩
    simp [getAllPlayers, getAllPlayersLoop, hpage, processKeys_err hmem hk hbad]

/-- Witness for C7: a failing page fetch and a corrupt stored value
each abort the whole call with the respective error. -/
theorem getAllPlayers_fail_fast_witness :
    getAllPlayers errPageStore 1 = some (.error (.storeErr 3)) ∧
    getAllPlayers corruptValStore 1 = some (.error .unmarshalErr) :=
  ⟨(getAllPlayers_fail_fast errPageStore 0 (.storeErr 3) [] 0).1 rfl,
   (getAllPlayers_fail_fast corruptValStore 0 .unmarshalErr ["user:eve"] 0).2 rfl
     ⟨"user:eve", by simp, by decide, rfl⟩⟩

/-- C8: an inbound text frame that is not a JSON object, or is one
without a recognized `type` discriminator, is discarded: the loop
continues, no frame is written, no broadcast happens, and the world
(store and registry) is untouched. -/
theorem wsLoop_malformed_frame_discarded (w : WorldState) (p : Payload)
    (h : unrecognizedFrame p) :
    wsLoopStep w (.message textMessage p) = ⟨.continueLoop, [], [], w⟩ := by
  cases p with
  | notJsonObject => rfl
  | jsonObject fields =>
    obtain ⟨h1, h2⟩ := h
    simp [wsLoopStep, h1, h2]

/-- Witness for C8: a JSON frame with no `type` field at all. -/
theorem wsLoop_malformed_frame_discarded_witness :
    wsLoopStep demoWorld
        (.message textMessage (.jsonObject [("channel", .str "leaderboard_updates")])) =
      ⟨.continueLoop, [], [], demoWorld⟩ :=
  wsLoop_malformed_frame_discarded demoWorld _ (by decide)

/-- C10: a store connectivity failure on the existence read of
`addUser` is treated exactly like an absent key — the handler writes a
fresh record with score 0 under the username's key (overwriting
whatever the store held there) and answers `"newly added"` instead of a
server error. -/
theorem addUser_get_error_creates (st : Store) (u : String) (s : Int)
    (herr : st.get ("user:" ++ u) = .errConn)
    (hset : st.setResult ("user:" ++ u) = none) :
    addUser st (some ⟨u, s⟩) =
      (.jsonResp u 0 "newly added", st.setVal ("user:" ++ u) (.json ⟨u, 0⟩)) ∧
    (st.setVal ("user:" ++ u) (.json ⟨u, 0⟩)).get ("user:" ++ u) = .found (.json ⟨u, 0⟩) := by
  refine ⟨?_, ?_⟩
  · simp only [addUser, herr, hset]
  · simp [Store.setVal]

/-- Witness for C10: a store whose reads all fail still gets a fresh
record written for "bob". -/
theorem addUser_get_error_creates_witness :
    addUser errGetStore (some ⟨"bob", 42⟩) =
      (.jsonResp "bob" 0 "newly added", errGetStore.setVal ("user:" ++ "bob") (.json ⟨"bob", 0⟩)) ∧
    (errGetStore.setVal ("user:" ++ "bob") (.json ⟨"bob", 0⟩)).get ("user:" ++ "bob") =
      .found (.json ⟨"bob", 0⟩) :=
  addUser_get_error_creates errGetStore "bob" 42 rfl rfl
